import Mathlib

/-!
Verification of the playerdb career-history pipeline.

Shallow embedding of the core data transformations of the repository:
the text normalizer of `optimized_career_scraper.py`, the stint / transition /
statistics builders of `career_database_builder.py`, the noise classifier and
cleaner of `database_cleaner.py`, and the merger of `database_merger.py`.
Python strings are embedded as Lean `String` (ASCII fidelity; the repository
data is ASCII apart from em-dashes, which both languages treat as ordinary
characters for the operations modelled here). `datetime.now()` is passed in
explicitly as a day ordinal `nowOrd` and a year `nowYear`. DataFrames are
embedded as lists of records; a column access on a frame built from an empty
record list is a `KeyError`, modelled with `Except`.
-/

namespace PlayerDB

/-! ### Python string primitives -/

/-- Characters matched by Python `\s` and stripped by `str.strip()` (ASCII). -/
def pyWsChar (c : Char) : Bool :=
  c = ' ' || c = '\t' || c = '\n' || c = '\r' || c = '\x0b' || c = '\x0c'

/-- Python `str.strip()`. -/
def pyStrip (s : String) : String :=
  String.mk (((s.data.dropWhile pyWsChar).reverse.dropWhile pyWsChar).reverse)

/-- Python `str.lower()` (ASCII letters). -/
def pyLower (s : String) : String := String.mk (s.data.map Char.toLower)

/-- Python substring containment `needle in hay` on character lists. -/
def containsSub (needle : List Char) : List Char → Bool
  | [] => needle.isEmpty
  | c :: rest => needle.isPrefixOf (c :: rest) || containsSub needle rest

/-- Python `str.title()` worker: uppercase an alphabetic character that follows
a non-alphabetic one, lowercase the rest of an alphabetic run. -/
def pyTitleGo : Bool → List Char → List Char
  | _, [] => []
  | prevAlpha, c :: rest =>
      (if c.isAlpha then (if prevAlpha then c.toLower else c.toUpper) else c)
        :: pyTitleGo c.isAlpha rest

/-- Python `str.title()` (ASCII letters). -/
def pyTitle (s : String) : String := String.mk (pyTitleGo false s.data)

/-! ### Noise Classifier (`database_cleaner.py`, `DatabaseCleaner`) -/

namespace DatabaseCleaner

/-- `self.fake_teams_exact` from `DatabaseCleaner.__init__`. -/
def fake_teams_exact : List String :=
  ["S-Tier", "A-Tier", "B-Tier", "C-Tier", "D-Tier",
   "Retired", "Inactive", "Active",
   "Qualifier", "Qualifiers", "Showmatch",
   "1st", "2nd", "3rd", "4th", "5th", "6th", "7th", "8th",
   "3rd - 4th", "5th - 6th", "7th - 8th",
   "TBD", "TBA", "Unknown", "N/A", "None"]

/-- The anchored literal patterns of `self.fake_team_patterns`, matched with
`re.IGNORECASE`: equivalent to lowercase equality. -/
def lowerLiteralPatterns : List String :=
  ["s-tier", "a-tier", "b-tier", "c-tier", "d-tier",
   "retired", "inactive", "active", "qualifier", "showmatch",
   "tbd", "tba", "unknown", "n/a", "none"]

/-- Consume an ordinal suffix `st|nd|rd|th` case-insensitively, returning the
remainder. -/
def ordinalSuffixRest (cs : List Char) : Option (List Char) :=
  match cs with
  | a :: b :: rest =>
      let p := (a.toLower, b.toLower)
      if p = ('s', 't') || p = ('n', 'd') || p = ('r', 'd') || p = ('t', 'h') then
        some rest
      else none
  | _ => none

/-- Match `\d+(?:st|nd|rd|th)` at the head, returning the remainder. -/
def matchOrdinalPrefix (cs : List Char) : Option (List Char) :=
  let ds := cs.takeWhile Char.isDigit
  if ds.isEmpty then none else ordinalSuffixRest (cs.drop ds.length)

/-- Pattern `^\d+(?:st|nd|rd|th)$`. -/
def patOrdinal (cs : List Char) : Bool :=
  match matchOrdinalPrefix cs with
  | some [] => true
  | _ => false

/-- Pattern `^\d+(?:st|nd|rd|th)\s*-\s*\d+(?:st|nd|rd|th)$`. -/
def patOrdinalRange (cs : List Char) : Bool :=
  match matchOrdinalPrefix cs with
  | some rest =>
      match rest.dropWhile pyWsChar with
      | '-' :: rest2 =>
          match matchOrdinalPrefix (rest2.dropWhile pyWsChar) with
          | some [] => true
          | _ => false
      | _ => false
  | none => false

/-- Pattern `^\d+$`. -/
def patAllDigits (cs : List Char) : Bool := !cs.isEmpty && cs.all Char.isDigit

/-- Pattern `^\s*$`. -/
def patAllWs (cs : List Char) : Bool := cs.all pyWsChar

/-- The `fake_team_patterns` loop of `is_fake_team` (every pattern is anchored
on both sides, so `re.match` is a full match). -/
def matchesFakePattern (team : String) : Bool :=
  lowerLiteralPatterns.contains (pyLower team)
    || patOrdinal team.data || patOrdinalRange team.data
    || patAllWs team.data || patAllDigits team.data

/-- `DatabaseCleaner.is_fake_team`. A `NaN` cell never arises for the string
inputs modelled here, so the `pd.isna` test is the falsy/blank test. -/
def is_fake_team (team_name : String) : Bool :=
  if team_name = "" || pyStrip team_name = "" then true
  else
    let team := pyStrip team_name
    if fake_teams_exact.contains team then true
    else matchesFakePattern team

end DatabaseCleaner

/-! ### Text Normalizer (`optimized_career_scraper.py`, `OptimizedCareerScraper`) -/

namespace OptimizedCareerScraper

/-- Does the ten-character list have the shape `\d{4}-\d{2}-\d{2}`? -/
def isISOShape (m : List Char) : Bool :=
  match m with
  | [y1, y2, y3, y4, h1, m1, m2, h2, d1, d2] =>
      y1.isDigit && y2.isDigit && y3.isDigit && y4.isDigit
        && h1 = '-' && m1.isDigit && m2.isDigit
        && h2 = '-' && d1.isDigit && d2.isDigit
  | _ => false

/-- Worker for `findAllISO`: `skip` counts characters still covered by the
previous (ten-character) match, so matches never overlap. -/
def findAllISOGo : List Char → Nat → List String
  | [], _ => []
  | _ :: t, skip + 1 => findAllISOGo t skip
  | c :: t, 0 =>
      if isISOShape ((c :: t).take 10) then
        String.mk ((c :: t).take 10) :: findAllISOGo t 9
      else findAllISOGo t 0

/-- `re.findall(r'(\d{4}-\d{2}-\d{2})', ...)`: scan left to right, matches do
not overlap. -/
def findAllISO (cs : List Char) : List String := findAllISOGo cs 0

/-- `OptimizedCareerScraper._extract_start_date`: the first ISO date substring
(`re.search`), or the empty string. -/
def _extract_start_date (date_range : String) : String :=
  (findAllISO date_range.data).headD ""

/-- `OptimizedCareerScraper._extract_end_date`: the literal two casings of the
token, then the last ISO date only when at least two are present. -/
def _extract_end_date (date_range : String) : String :=
  if containsSub "Present".data date_range.data
      || containsSub "present".data date_range.data then "Present"
  else
    let ms := findAllISO date_range.data
    if ms.length > 1 then ms.getLastD "" else ""

/-- The first parenthesized group found by `re.search(r'\(([^)]+)\)', ...)`:
the first `(` that is followed by at least one non-`)` character and then a
`)`. -/
def firstParenGroup : List Char → Option (List Char)
  | [] => none
  | c :: rest =>
      if c = '(' then
        let run := rest.takeWhile (fun x => x ≠ ')')
        if run.isEmpty then firstParenGroup rest
        else
          match rest.drop run.length with
          | ')' :: _ => some run
          | _ => firstParenGroup rest
      else firstParenGroup rest

/-- `OptimizedCareerScraper._extract_status`. -/
def _extract_status (team_text : String) : String :=
  match firstParenGroup team_text.data with
  | some g =>
      let status := pyLower (pyStrip (String.mk g))
      if containsSub "inactive".data status.data then "Inactive"
      else if containsSub "loan".data status.data then "Loan"
      else if containsSub "stand-in".data status.data
          || containsSub "standin".data status.data then "Stand-in"
      else if containsSub "trial".data status.data then "Trial"
      else pyTitle status
  | none => "Active"

/-- Leftmost split of the segment before the final `)`: find the first `(`
whose remainder (the group content `[^)]+`) is non-empty and free of `)` —
the content may contain further `(` characters — and return the part kept
before it. `re.sub` scans left to right, so the leftmost such `(` wins. -/
def leftmostParenSplit : List Char → Option (List Char)
  | [] => none
  | c :: rest =>
      if c = '(' && !rest.isEmpty && !rest.contains ')' then some []
      else (leftmostParenSplit rest).map (fun before => c :: before)

/-- `re.sub(r'\s*\([^)]+\)\s*$', '', team_text)`: the closing `)` must be the
last non-whitespace character; the matched `(` is the leftmost one with no
other `)` before that final `)` and at least one content character; the match
also swallows the whitespace just before the `(` and after the `)`. Without
such a match the string is unchanged. -/
def stripTrailingParen (cs : List Char) : List Char :=
  match cs.reverse.dropWhile pyWsChar with
  | ')' :: r2 =>
      match leftmostParenSplit r2.reverse with
      | some before => (before.reverse.dropWhile pyWsChar).reverse
      | none => cs
  | _ => cs

/-- `OptimizedCareerScraper._clean_team_name`. -/
def _clean_team_name (team_text : String) : String :=
  pyStrip (String.mk (stripTrailingParen team_text.data))

/-- The stripped, lower-cased content of a status group, as computed at the
head of `_extract_status`. -/
def statusNorm (g : List Char) : String := pyLower (pyStrip (String.mk g))

end OptimizedCareerScraper

/-! ### Calendar arithmetic for `datetime.strptime` / `timedelta.days` -/

/-- Gregorian leap year. -/
def isLeapYear (y : Nat) : Bool := y % 4 = 0 && (y % 100 ≠ 0 || y % 400 = 0)

/-- Length of month `m` (1-based) of year `y`. -/
def daysInMonth (y m : Nat) : Nat :=
  if m = 2 then (if isLeapYear y then 29 else 28)
  else if m = 4 || m = 6 || m = 9 || m = 11 then 30
  else 31

/-- Days in the years strictly before year `y` (year 1 is the first year). -/
def daysBeforeYear (y : Nat) : Nat :=
  365 * (y - 1) + (y - 1) / 4 - (y - 1) / 100 + (y - 1) / 400

/-- Days in the months of year `y` strictly before month `m`. -/
def daysBeforeMonth (y m : Nat) : Nat :=
  (([31, 28, 31, 30, 31, 30, 31, 31, 30, 31, 30, 31].take (m - 1)).foldl (· + ·) 0)
    + (if m > 2 && isLeapYear y then 1 else 0)

/-- Proleptic Gregorian ordinal of a date, as in `datetime.toordinal`
(0001-01-01 is day 1). -/
def toOrdinal (y m d : Nat) : Nat := daysBeforeYear y + daysBeforeMonth y m + d

/-- Numeric value of a digit character. -/
def digitVal (c : Char) : Nat := c.toNat - 48

/-- Day field of `strptime('%Y-%m-%d')`: one digit `[1-9]` at the end of the
string, or two digits in `01`–`31` at the end of the string. -/
def parseDayEnd : List Char → Option Nat
  | [a] => if a.isDigit && 1 ≤ digitVal a then some (digitVal a) else none
  | [a, b] =>
      if a.isDigit && b.isDigit then
        let d := digitVal a * 10 + digitVal b
        if 1 ≤ d && d ≤ 31 then some d else none
      else none
  | _ => none

/-- Month and day fields of `strptime('%Y-%m-%d')` after the `year-` prefix:
a two-digit month must itself be `01`–`12` (a single digit `[1-9]` is only
accepted when the next character is the dash). -/
def parseMonthDayEnd : List Char → Option (Nat × Nat)
  | a :: b :: rest =>
      if a.isDigit && b.isDigit then
        let m := digitVal a * 10 + digitVal b
        if 1 ≤ m && m ≤ 12 then
          match rest with
          | '-' :: rest2 => (parseDayEnd rest2).map (fun d => (m, d))
          | _ => none
        else none
      else if a.isDigit && b = '-' then
        if 1 ≤ digitVal a then (parseDayEnd rest).map (fun d => (digitVal a, d))
        else none
      else none
  | _ => none

/-- `datetime.strptime(s, '%Y-%m-%d')`: exactly four year digits, the whole
string must be consumed, and the day must exist in the calendar (otherwise the
`datetime` constructor raises). Years below 1 are rejected as `datetime` does. -/
def parseYMD (s : String) : Option (Nat × Nat × Nat) :=
  match s.data with
  | y1 :: y2 :: y3 :: y4 :: '-' :: rest =>
      if y1.isDigit && y2.isDigit && y3.isDigit && y4.isDigit then
        let y := ((digitVal y1 * 10 + digitVal y2) * 10 + digitVal y3) * 10 + digitVal y4
        if 1 ≤ y then
          match parseMonthDayEnd rest with
          | some (m, d) => if d ≤ daysInMonth y m then some (y, m, d) else none
          | none => none
        else none
      else none
  | _ => none

/-- Ordinal of a parsed date triple. -/
def ordinalOf (p : Nat × Nat × Nat) : Nat := toOrdinal p.1 p.2.1 p.2.2

/-! ### Data model -/

/-- One well-formed raw career entry, as decoded from the `career_history`
JSON; the defaults mirror the `entry.get(..., default)` calls of
`build_career_stints_table`. -/
structure RawEntry where
  date_start : String := ""
  date_end : String := ""
  date_range : String := ""
  team : String := ""
  status : String := "Active"
deriving DecidableEq, Repr

/-- A raw career entry as processed by the builder loop: `malformed` stands
for an entry whose processing raises (a non-dict element, or a non-string
truthy `date_end` hitting `.lower()`), which the per-player `except` catches. -/
inductive CareerEntry where
  | ok : RawEntry → CareerEntry
  | malformed : CareerEntry
deriving DecidableEq, Repr

/-- The `career_history` cell of a player row: `absent` is `NaN`/empty (the
player is skipped silently), `invalid` is a truthy string on which
`json.loads` raises (caught by the per-player handler, zero stints). -/
inductive CareerHistory where
  | absent : CareerHistory
  | invalid : CareerHistory
  | entries : List CareerEntry → CareerHistory
deriving DecidableEq, Repr

/-- A row of the scraped players table (`players_df`). -/
structure RawPlayer where
  player_id : String
  real_name : String := ""
  country : String := ""
  current_team : String := ""
  status : String := "Active"
  career_history : CareerHistory := CareerHistory.absent
  teams_count : Option Nat := none
  roles : String := ""
  birth_date : String := ""
  player_url : String := ""
deriving DecidableEq, Repr

/-- A row of the career stints table. -/
structure Stint where
  stint_id : Nat
  player_id : String
  real_name : String
  country : String
  current_team : String
  player_status : String
  stint_number : Nat
  total_stints : Nat
  team : String
  date_start : String
  date_end : String
  date_range : String
  stint_status : String
  is_current_team : Bool
  duration_days : Nat
  year_start : Option Int
  year_end : Option Int
  roles : String
  player_url : String
deriving DecidableEq, Repr

/-- A row of the team transitions table. -/
structure Transition where
  transition_id : Nat
  player_id : String
  real_name : String
  country : String
  from_team : String
  to_team : String
  from_stint_status : String
  to_stint_status : String
  transition_date : String
  transition_year : Option Int
  from_duration_days : Nat
  stint_number : Nat
deriving DecidableEq, Repr

/-- A row of the player statistics table. -/
structure PlayerStats where
  player_id : String
  real_name : String
  country : String
  current_team : String
  player_status : String
  total_teams : Nat
  unique_teams : Nat
  teams_played_multiple_times : Nat
  career_start_date : String
  career_end_date : String
  career_start_year : Option Int
  career_end_year : Option Int
  career_span_years : Int
  total_career_days : Nat
  avg_stint_duration_days : Rat
  is_active : Bool
  has_current_team : Bool
  inactive_stints : Nat
  loan_stints : Nat
  standin_stints : Nat
  roles : String
  birth_date : String
  player_url : String
deriving DecidableEq, Repr

/-! ### Stint Builder and Relational Deriver (`career_database_builder.py`) -/

namespace CareerHistoryDatabase

/-- `'present' in s.lower()`. -/
def hasPresentLower (s : String) : Bool :=
  containsSub "present".data (pyLower s).data

/-- Scan for the first run of four digit characters, `re.search(r'(\d{4})')`. -/
def findFourDigits : List Char → Option (List Char)
  | c1 :: c2 :: c3 :: c4 :: rest =>
      if c1.isDigit && c2.isDigit && c3.isDigit && c4.isDigit then
        some [c1, c2, c3, c4]
      else findFourDigits (c2 :: c3 :: c4 :: rest)
  | _ => none

/-- Decimal value of a digit list. -/
def charsToNat (ds : List Char) : Nat :=
  ds.foldl (fun acc c => acc * 10 + digitVal c) 0

/-- `CareerHistoryDatabase._extract_year`: the first 4-digit run of the
string, `None` for an empty (falsy) string or when no run exists. -/
def _extract_year (date_str : String) : Option Int :=
  if date_str = "" then none
  else (findFourDigits date_str.data).map (fun ds => (charsToNat ds : Int))

/-- `CareerHistoryDatabase._calculate_duration`, with `datetime.now()` given
as the day ordinal `nowOrd`. `Nat` subtraction truncates at zero exactly like
the `max(0, duration)` clamp (the sub-day time component of `now` only ever
moves a clamped-to-zero result, so day granularity is faithful). -/
def _calculate_duration (nowOrd : Nat) (date_start date_end : String) : Nat :=
  if date_start = "" || date_end = "" then 0
  else
    let endOrd : Option Nat :=
      if hasPresentLower date_end then some nowOrd
      else (parseYMD date_end).map ordinalOf
    match endOrd, (parseYMD date_start).map ordinalOf with
    | some e, some s => e - s
    | _, _ => 0

/-- Build the stint record appended for one well-formed entry of the loop of
`build_career_stints_table` (`careerLen` is `len(career)`, the default for
the `teams_count` lookup). -/
def mkStintOf (nowOrd : Nat) (nowYear : Int) (p : RawPlayer) (careerLen : Nat)
    (sid snum : Nat) (e : RawEntry) : Stint :=
  { stint_id := sid
    player_id := p.player_id
    real_name := p.real_name
    country := p.country
    current_team := p.current_team
    player_status := p.status
    stint_number := snum
    total_stints := p.teams_count.getD careerLen
    team := e.team
    date_start := e.date_start
    date_end := e.date_end
    date_range := e.date_range
    stint_status := e.status
    is_current_team := if e.date_end != "" then hasPresentLower e.date_end else false
    duration_days := _calculate_duration nowOrd e.date_start e.date_end
    year_start := _extract_year e.date_start
    year_end :=
      if e.date_end != "" && !hasPresentLower e.date_end then _extract_year e.date_end
      else some nowYear
    roles := p.roles
    player_url := p.player_url }

/-- The `for stint_num, entry in enumerate(career, 1)` loop for one player:
a malformed entry raises, so processing of this player stops there (the
exception is caught one level up) and the stints appended so far survive. -/
def processEntries (nowOrd : Nat) (nowYear : Int) (p : RawPlayer) (careerLen : Nat) :
    List CareerEntry → Nat → Nat → List Stint
  | [], _, _ => []
  | CareerEntry.malformed :: _, _, _ => []
  | CareerEntry.ok e :: rest, sid, snum =>
      mkStintOf nowOrd nowYear p careerLen sid snum e
        :: processEntries nowOrd nowYear p careerLen rest (sid + 1) (snum + 1)

/-- The outer player loop of `build_career_stints_table`, threading the
global `stint_id` counter. -/
def buildStintsAux (nowOrd : Nat) (nowYear : Int) : List RawPlayer → Nat → List Stint
  | [], _ => []
  | p :: rest, sid =>
      match p.career_history with
      | CareerHistory.absent => buildStintsAux nowOrd nowYear rest sid
      | CareerHistory.invalid => buildStintsAux nowOrd nowYear rest sid
      | CareerHistory.entries es =>
          let ss := processEntries nowOrd nowYear p es.length es sid 1
          ss ++ buildStintsAux nowOrd nowYear rest (sid + ss.length)

/-- `CareerHistoryDatabase.build_career_stints_table`. -/
def build_career_stints_table (nowOrd : Nat) (nowYear : Int)
    (players : List RawPlayer) : List Stint :=
  buildStintsAux nowOrd nowYear players 1

/-- The rows of `stints` for one player, `df[df['player_id'] == pid]`. -/
def stintsFor (pid : String) (stints : List Stint) : List Stint :=
  stints.filter (fun s => s.player_id == pid)

/-- First-occurrence-preserving deduplication with an accumulator of already
seen keys; `Series.unique()` keeps first-appearance order. -/
def uniqueFirst : List String → List String → List String
  | [], _ => []
  | x :: xs, seen =>
      if x ∈ seen then uniqueFirst xs seen
      else x :: uniqueFirst xs (x :: seen)

/-- `stints_df['player_id'].unique()`. -/
def uniquePids (stints : List Stint) : List String :=
  uniqueFirst (stints.map Stint.player_id) []

/-- Stable insertion sort on `stint_number` embedding `sort_values`; within a
player the stint numbers are distinct, so any correct sort agrees. -/
def insertByNum (s : Stint) : List Stint → List Stint
  | [] => [s]
  | t :: ts =>
      if s.stint_number ≤ t.stint_number then s :: t :: ts
      else t :: insertByNum s ts

/-- Sort a stint list by `stint_number`. -/
def sortByStintNumber : List Stint → List Stint
  | [] => []
  | s :: ss => insertByNum s (sortByStintNumber ss)

/-- Consecutive pairs of a list, `(iloc[i], iloc[i+1])`. -/
def adjPairs (xs : List Stint) : List (Stint × Stint) := xs.zip xs.tail

/-- The transition record appended for one consecutive pair (the id counter is
assigned afterwards, in generation order, exactly as the running
`transition_id` does). -/
def mkTransition (pid : String) (cur next : Stint) : Transition :=
  { transition_id := 0
    player_id := pid
    real_name := cur.real_name
    country := cur.country
    from_team := cur.team
    to_team := next.team
    from_stint_status := cur.stint_status
    to_stint_status := next.stint_status
    transition_date := next.date_start
    transition_year := next.year_start
    from_duration_days := cur.duration_days
    stint_number := cur.stint_number }

/-- Number the generated transitions `1, 2, ...` in order. -/
def assignTransitionIds : List Transition → Nat → List Transition
  | [], _ => []
  | t :: ts, n => { t with transition_id := n } :: assignTransitionIds ts (n + 1)

/-- The grouped generation loop of `build_team_transitions_table`. -/
def transitionsForPids (stints : List Stint) : List String → List Transition
  | [] => []
  | pid :: rest =>
      (adjPairs (sortByStintNumber (stintsFor pid stints))).map
          (fun pr => mkTransition pid pr.1 pr.2)
        ++ transitionsForPids stints rest

/-- The transitions produced from a stint collection once the `player_id`
column exists. -/
def team_transitions_core (stints : List Stint) : List Transition :=
  assignTransitionIds (transitionsForPids stints (uniquePids stints)) 1

/-- `CareerHistoryDatabase.build_team_transitions_table`: a frame built from
an empty record list has no columns, so `['player_id']` raises `KeyError`. -/
def build_team_transitions_table (stints : List Stint) : Except String (List Transition) :=
  if stints.isEmpty then Except.error "KeyError: player_id"
  else Except.ok (team_transitions_core stints)

/-- Lexicographic minimum of a string column (`Series.min`; `min` of an empty
group never arises since groups come from `unique()`). -/
def strMin : List String → String
  | [] => ""
  | x :: xs => xs.foldl (fun a b => if b < a then b else a) x

/-- Lexicographic maximum of a string column (`Series.max`). -/
def strMax : List String → String
  | [] => ""
  | x :: xs => xs.foldl (fun a b => if a < b then b else a) x

/-- `Series.min` on a numeric column with missing values (`skipna`). -/
def optIntMin (l : List (Option Int)) : Option Int :=
  l.foldl
    (fun acc o =>
      match acc, o with
      | none, o2 => o2
      | some a, none => some a
      | some a, some b => some (min a b))
    none

/-- `Series.max` on a numeric column with missing values (`skipna`). -/
def optIntMax (l : List (Option Int)) : Option Int :=
  l.foldl
    (fun acc o =>
      match acc, o with
      | none, o2 => o2
      | some a, none => some a
      | some a, some b => some (max a b))
    none

/-- `year_end - year_start if year_end > year_start else 0` under `NaN`
propagation (any comparison with `NaN` is false). -/
def careerSpanYears : Option Int → Option Int → Int
  | some ys, some ye => if ys < ye then ye - ys else 0
  | _, _ => 0

/-- One row of the statistics loop of `build_player_stats_table`; `iloc[0]`
on an empty selection raises `IndexError`. -/
def statsRowFor (players : List RawPlayer) (stints : List Stint) (pid : String) :
    Except String PlayerStats :=
  let group := stintsFor pid stints
  match (players.filter (fun p => p.player_id == pid)).head? with
  | none => Except.error "IndexError: single positional indexer is out-of-bounds"
  | some info =>
      let total_teams := group.length
      let unique_teams := (uniqueFirst (group.map Stint.team) []).length
      let ys := optIntMin (group.map Stint.year_start)
      let ye := optIntMax (group.map Stint.year_end)
      Except.ok
        { player_id := pid
          real_name := info.real_name
          country := info.country
          current_team := info.current_team
          player_status := info.status
          total_teams := total_teams
          unique_teams := unique_teams
          teams_played_multiple_times := total_teams - unique_teams
          career_start_date := strMin (group.map Stint.date_start)
          career_end_date := strMax (group.map Stint.date_end)
          career_start_year := ys
          career_end_year := ye
          career_span_years := careerSpanYears ys ye
          total_career_days := (group.map Stint.duration_days).foldl (· + ·) 0
          avg_stint_duration_days :=
            ((group.map Stint.duration_days).foldl (· + ·) 0 : Rat) / (group.length : Rat)
          is_active := info.status == "Active"
          has_current_team := info.current_team != ""
          inactive_stints := (group.filter (fun s => s.stint_status == "Inactive")).length
          loan_stints := (group.filter (fun s => s.stint_status == "Loan")).length
          standin_stints := (group.filter (fun s => s.stint_status == "Stand-in")).length
          roles := info.roles
          birth_date := info.birth_date
          player_url := info.player_url }

/-- `CareerHistoryDatabase.build_player_stats_table`: the `player_id` column
lookup on the empty stints frame raises `KeyError` before the loop runs. -/
def build_player_stats_table (players : List RawPlayer) (stints : List Stint) :
    Except String (List PlayerStats) :=
  if stints.isEmpty then Except.error "KeyError: player_id"
  else (uniquePids stints).mapM (statsRowFor players stints)

end CareerHistoryDatabase

/-! ### Cleaner (`database_cleaner.py`, continued) -/

namespace DatabaseCleaner

/-- The row filter of `clean_stints`. -/
def clean_stints_core (stints : List Stint) : List Stint :=
  stints.filter (fun s => !is_fake_team s.team)

/-- `DatabaseCleaner.clean_stints`: on an empty frame the `['team']` column
lookup raises `KeyError`; otherwise rows whose team the Noise Classifier
rejects are dropped (nothing else changes). -/
def clean_stints (stints : List Stint) : Except String (List Stint) :=
  if stints.isEmpty then Except.error "KeyError: team"
  else Except.ok (clean_stints_core stints)

/-- A transition both of whose endpoint teams are real. -/
def keepRealTransition (t : Transition) : Bool :=
  !is_fake_team t.from_team && !is_fake_team t.to_team

/-- The row filter of `clean_transitions`. -/
def clean_transitions_core (ts : List Transition) : List Transition :=
  ts.filter keepRealTransition

/-- `DatabaseCleaner.clean_transitions`: drop transitions with a noisy
endpoint; the existing transitions are filtered, never rebuilt from the
cleaned stints. -/
def clean_transitions (ts : List Transition) : Except String (List Transition) :=
  if ts.isEmpty then Except.error "KeyError: from_team"
  else Except.ok (clean_transitions_core ts)

end DatabaseCleaner

/-! ### Merger (`database_merger.py`) -/

/-- `drop_duplicates(subset=['player_id'], keep='first')`: keep a row when its
`player_id` has not been seen yet. -/
def dedupByPid : List RawPlayer → List String → List RawPlayer
  | [], _ => []
  | p :: rest, seen =>
      if p.player_id ∈ seen then dedupByPid rest seen
      else p :: dedupByPid rest (p.player_id :: seen)

/-- `merge_databases`: concatenate then deduplicate by `player_id`,
first seen wins. -/
def merge_databases (main supp : List RawPlayer) : List RawPlayer :=
  dedupByPid (main ++ supp) []

/-- Keys seen after `dedupByPid` has traversed a list. -/
def seenAfter : List RawPlayer → List String → List String
  | [], seen => seen
  | p :: rest, seen =>
      if p.player_id ∈ seen then seenAfter rest seen
      else seenAfter rest (p.player_id :: seen)

/-! ### Concrete sample data used by the scenario theorems -/

/-- A fixed "now" for the scenarios (2026-10-12 as a day ordinal). -/
def sampleNow : Nat := toOrdinal 2026 10 12

/-- The calendar year of the fixed "now". -/
def sampleYear : Int := 2026

/-- First stint entry of the `[A, B, C]` scenario. -/
def entryA : RawEntry :=
  { date_start := "2020-01-01", date_end := "2020-06-01",
    date_range := "2020-01-01 — 2020-06-01", team := "Team A", status := "Active" }

/-- Middle entry of the scenario; `TBD` is in the classifier denylist. -/
def entryB : RawEntry :=
  { date_start := "2020-06-02", date_end := "2020-06-30",
    date_range := "2020-06-02 — 2020-06-30", team := "TBD", status := "Active" }

/-- Last stint entry of the `[A, B, C]` scenario. -/
def entryC : RawEntry :=
  { date_start := "2020-07-01", date_end := "Present",
    date_range := "2020-07-01 — Present", team := "Team C", status := "Active" }

/-- A player whose raw career is `[A, B, C]` with the noisy middle team. -/
def playerABC : RawPlayer :=
  { player_id := "p1", real_name := "Alice", country := "France",
    career_history := CareerHistory.entries
      [CareerEntry.ok entryA, CareerEntry.ok entryB, CareerEntry.ok entryC],
    teams_count := some 3 }

/-- The stints the builder derives for `playerABC`. -/
def sampleStints : List Stint :=
  CareerHistoryDatabase.build_career_stints_table sampleNow sampleYear [playerABC]

/-- A player whose second raw entry is malformed. -/
def playerMal : RawPlayer :=
  { player_id := "p1", real_name := "Alice", country := "France",
    career_history := CareerHistory.entries
      [CareerEntry.ok entryA, CareerEntry.malformed, CareerEntry.ok entryC],
    teams_count := some 3 }

/-- A second, well-formed player processed after the malformed one. -/
def playerD : RawPlayer :=
  { player_id := "p2", real_name := "Bob", country := "Spain",
    career_history := CareerHistory.entries
      [CareerEntry.ok { date_start := "2021-01-01", date_end := "2021-02-01",
                        date_range := "2021-01-01 — 2021-02-01", team := "Team D" }],
    teams_count := some 1 }

/-- A player whose single entry has an empty `date_end` (start-only range). -/
def playerNoEnd : RawPlayer :=
  { player_id := "p9", real_name := "Carol", country := "Italy",
    career_history := CareerHistory.entries
      [CareerEntry.ok { date_start := "2020-04-13", date_end := "",
                        date_range := "2020-04-13", team := "Solo Team" }],
    teams_count := some 1 }

/-- A placeholder stint record (only used to name the head of a list). -/
def stintDefault : Stint :=
  { stint_id := 0, player_id := "", real_name := "", country := "",
    current_team := "", player_status := "", stint_number := 0, total_stints := 0,
    team := "", date_start := "", date_end := "", date_range := "",
    stint_status := "", is_current_team := false, duration_days := 0,
    year_start := none, year_end := none, roles := "", player_url := "" }

/-- The first stint built for `playerABC`. -/
def sampleStint0 : Stint := sampleStints.headD stintDefault

/-- Merger scenario: `p1` as present in the first collection. -/
def mPlayerFirst : RawPlayer := { player_id := "p1", real_name := "from first" }

/-- Merger scenario: a conflicting `p1` in the second collection. -/
def mPlayerSecond : RawPlayer := { player_id := "p1", real_name := "from second" }

/-- Merger scenario: `p2`, only in the second collection. -/
def mPlayerOther : RawPlayer := { player_id := "p2", real_name := "second only" }

/-! ## Theorems -/

open CareerHistoryDatabase OptimizedCareerScraper

/-- C8: the Noise Classifier is a total Boolean-valued function on strings —
the embedding is a total Lean function, so no input can raise — and the four
given points evaluate as stated: `is_noise("S-Tier") = True`,
`is_noise("3rd - 4th") = True`, `is_noise("Sentinels") = False`,
`is_noise("") = True`. -/
theorem C8_noise_classifier_total_points :
    DatabaseCleaner.is_fake_team "S-Tier" = true
      ∧ DatabaseCleaner.is_fake_team "3rd - 4th" = true
      ∧ DatabaseCleaner.is_fake_team "Sentinels" = false
      ∧ DatabaseCleaner.is_fake_team "" = true
      ∧ ∀ s : String,
          DatabaseCleaner.is_fake_team s = true ∨ DatabaseCleaner.is_fake_team s = false :=
  ⟨rfl, rfl, rfl, rfl, fun s => by cases h : DatabaseCleaner.is_fake_team s
                                   · exact Or.inr rfl
                                   · exact Or.inl rfl⟩

/-- C10: on an empty stint collection both the Transitions builder and the
PlayerStatistics builder fail with the `KeyError` of the `player_id` column
lookup on a column-less empty frame, instead of returning empty
collections. -/
theorem C10_empty_input_raises :
    CareerHistoryDatabase.build_team_transitions_table ([] : List Stint)
        = Except.error "KeyError: player_id"
      ∧ ∀ players : List RawPlayer,
          CareerHistoryDatabase.build_player_stats_table players ([] : List Stint)
            = Except.error "KeyError: player_id" :=
  ⟨rfl, fun _ => rfl⟩

/-- C2 counterexample: cleaning the `[A, B, C]` scenario stints (middle team
`TBD` is noise) leaves stint numbers `[1, 3]` — the claimed re-sequencing to
`[1, 2]` does not happen. -/
theorem C2_counterexample :
    Except.map (List.map Stint.stint_number) (DatabaseCleaner.clean_stints sampleStints)
        = Except.ok [1, 3]
      ∧ ([1, 3] : List Nat) ≠ [1, 2] :=
  ⟨rfl, by decide⟩

/-- C2 (amended): the Cleaner keeps surviving stints verbatim — the filtered
table is a sublist of the input, so each surviving stint retains its original
`stint_number` — and in the `[A, B, C]` scenario the survivors are
`[A, C]` with stint numbers `[1, 3]` (gaps remain; no re-sequencing). -/
theorem C2_cleaner_keeps_numbers :
    (∀ stints : List Stint,
        List.Sublist (DatabaseCleaner.clean_stints_core stints) stints)
      ∧ Except.map (List.map Stint.stint_number) (DatabaseCleaner.clean_stints sampleStints)
          = Except.ok [1, 3]
      ∧ Except.map (List.map Stint.team) (DatabaseCleaner.clean_stints sampleStints)
          = Except.ok ["Team A", "Team C"] :=
  ⟨fun stints => List.filter_sublist stints, rfl, rfl⟩

/-- C1 counterexample: in the `[A, B, C]` scenario the Cleaner leaves two
stints for the player but zero transitions — not `2 − 1 = 1` — because it
filters the originally built transitions (both of which touch the noisy
middle team) instead of recomputing them from the filtered stints. -/
theorem C1_counterexample :
    DatabaseCleaner.clean_transitions (CareerHistoryDatabase.team_transitions_core sampleStints)
        = Except.ok []
      ∧ Except.map List.length (DatabaseCleaner.clean_stints sampleStints) = Except.ok 2
      ∧ (0 : Nat) ≠ 2 - 1 :=
  ⟨rfl, rfl, by decide⟩

/-- C3 counterexample: with a malformed second entry, the builder emits only
the first entry's stint for that player (the surviving third entry `Team C`
is never emitted), while later players are still processed. -/
theorem C3_counterexample :
    (CareerHistoryDatabase.build_career_stints_table sampleNow sampleYear
          [playerMal, playerD]).map Stint.team = ["Team A", "Team D"]
      ∧ "Team C" ∉ (CareerHistoryDatabase.build_career_stints_table sampleNow sampleYear
          [playerMal, playerD]).map Stint.team :=
  ⟨rfl, by decide⟩

/-- C4 counterexample: a stint whose `date_end` is the empty string gets
`year_end = current year` (here 2026), not the extracted-year value `none`
that the claim prescribes for every non-"Present" `date_end`. -/
theorem C4_counterexample :
    (CareerHistoryDatabase.build_career_stints_table sampleNow 2026
          [playerNoEnd]).map Stint.year_end = [some 2026]
      ∧ (CareerHistoryDatabase.build_career_stints_table sampleNow 2026
          [playerNoEnd]).map Stint.date_end = [""]
      ∧ CareerHistoryDatabase._extract_year "" = none
      ∧ some (2026 : Int) ≠ (none : Option Int) :=
  ⟨rfl, rfl, rfl, by decide⟩

/-- C5 counterexample: in `"2020-01-01 - PRESENT"` the token "present" does
appear under case-insensitive matching, yet the extractor returns the empty
string rather than `"Present"` — it only recognises the two literal casings
`Present`/`present`. -/
theorem C5_counterexample :
    containsSub "present".data (pyLower "2020-01-01 - PRESENT").data = true
      ∧ OptimizedCareerScraper._extract_end_date "2020-01-01 - PRESENT" = ""
      ∧ ("" : String) ≠ "Present" :=
  ⟨by decide, rfl, by decide⟩

/-- C6 counterexample: with two parenthesized groups the status comes from
the first group (`"B"`), not from the trailing one (`"Loan"`) as claimed. -/
theorem C6_counterexample :
    OptimizedCareerScraper._extract_status "Team Liquid (B) (Loan)" = "B"
      ∧ ("B" : String) ≠ "Loan" :=
  ⟨rfl, by decide⟩

/-- C7 counterexample: for `date_start = "2020-01-01"` and a `date_end` of
`"also present"` — which is neither the sentinel `"Present"` nor parsable as
a date, so the claim prescribes 0 — the code takes the `'present' in lower`
branch and returns `now − start` (366 with `now` at 2021-01-01). -/
theorem C7_counterexample :
    CareerHistoryDatabase._calculate_duration (toOrdinal 2021 1 1)
          "2020-01-01" "also present" = 366
      ∧ ("also present" : String) ≠ "Present"
      ∧ (366 : Nat) ≠ 0 :=
  ⟨rfl, by decide, by decide⟩

/-! ### Lemmas about `dedupByPid` (for the Merger claim) -/

theorem find?_append_eq {α : Type} (p : α → Bool) (l1 l2 : List α) :
    (l1 ++ l2).find? p = (l1.find? p <|> l2.find? p) := by
  induction l1 with
  | nil => rfl
  | cons a t ih =>
      cases h : p a with
      | true => simp only [List.cons_append, List.find?_cons, h]; rfl
      | false => simp only [List.cons_append, List.find?_cons, h, ih]

theorem dedupByPid_sublist : ∀ (l : List RawPlayer) (seen : List String),
    List.Sublist (dedupByPid l seen) l := by
  intro l
  induction l with
  | nil => intro seen; exact List.Sublist.refl []
  | cons p t ih =>
      intro seen
      by_cases h : p.player_id ∈ seen
      · simp only [dedupByPid, if_pos h]
        exact (ih seen).cons p
      · simp only [dedupByPid, if_neg h]
        exact (ih _).cons₂ p

theorem find?_dedupByPid (pid : String) : ∀ (l : List RawPlayer) (seen : List String),
    pid ∉ seen →
    (dedupByPid l seen).find? (fun p => p.player_id == pid)
      = l.find? (fun p => p.player_id == pid) := by
  intro l
  induction l with
  | nil => intro seen _; rfl
  | cons p t ih =>
      intro seen hseen
      by_cases hmem : p.player_id ∈ seen
      · have hne : (p.player_id == pid) = false := by
          rw [beq_eq_false_iff_ne]
          intro he
          exact hseen (he ▸ hmem)
        simp only [dedupByPid, if_pos hmem, List.find?_cons, hne]
        exact ih seen hseen
      · simp only [dedupByPid, if_neg hmem]
        cases hp : (p.player_id == pid) with
        | true => simp only [List.find?_cons, hp]
        | false =>
            simp only [List.find?_cons, hp]
            refine ih _ ?_
            intro hin
            rcases List.mem_cons.mp hin with h1 | h2
            · rw [← h1] at hp
              simp at hp
            · exact hseen h2

theorem mem_map_dedupByPid (q : String) : ∀ (l : List RawPlayer) (seen : List String),
    q ∈ (dedupByPid l seen).map RawPlayer.player_id
      ↔ q ∈ l.map RawPlayer.player_id ∧ q ∉ seen := by
  intro l
  induction l with
  | nil => intro seen; simp [dedupByPid]
  | cons p t ih =>
      intro seen
      by_cases hmem : p.player_id ∈ seen
      · simp only [dedupByPid, if_pos hmem, List.map_cons, List.mem_cons]
        rw [ih]
        constructor
        · rintro ⟨h1, h2⟩
          exact ⟨Or.inr h1, h2⟩
        · rintro ⟨h1 | h1, h2⟩
          · exact absurd (h1 ▸ hmem) h2
          · exact ⟨h1, h2⟩
      · simp only [dedupByPid, if_neg hmem, List.map_cons, List.mem_cons]
        rw [ih]
        constructor
        · rintro (h | ⟨h1, h2⟩)
          · exact ⟨Or.inl h, h ▸ hmem⟩
          · exact ⟨Or.inr h1, fun hq => h2 (List.mem_cons.mpr (Or.inr hq))⟩
        · rintro ⟨h1 | h1, h2⟩
          · exact Or.inl h1
          · by_cases hq : q = p.player_id
            · exact Or.inl hq
            · exact Or.inr ⟨h1, fun hin => (List.mem_cons.mp hin).elim hq h2⟩

theorem nodup_map_dedupByPid : ∀ (l : List RawPlayer) (seen : List String),
    ((dedupByPid l seen).map RawPlayer.player_id).Nodup := by
  intro l
  induction l with
  | nil => intro seen; simp [dedupByPid]
  | cons p t ih =>
      intro seen
      by_cases hmem : p.player_id ∈ seen
      · simp only [dedupByPid, if_pos hmem]
        exact ih seen
      · simp only [dedupByPid, if_neg hmem, List.map_cons]
        refine List.nodup_cons.mpr ⟨?_, ih _⟩
        intro hin
        exact ((mem_map_dedupByPid _ t _).mp hin).2 (List.mem_cons_self _ _)

theorem mem_seenAfter (q : String) : ∀ (l : List RawPlayer) (seen : List String),
    q ∈ seenAfter l seen ↔ q ∈ seen ∨ q ∈ l.map RawPlayer.player_id := by
  intro l
  induction l with
  | nil => intro seen; simp [seenAfter]
  | cons p t ih =>
      intro seen
      by_cases hmem : p.player_id ∈ seen
      · simp only [seenAfter, if_pos hmem, List.map_cons, List.mem_cons]
        rw [ih]
        constructor
        · rintro (h | h)
          · exact Or.inl h
          · exact Or.inr (Or.inr h)
        · rintro (h | h | h)
          · exact Or.inl h
          · exact Or.inl (h ▸ hmem)
          · exact Or.inr h
      · simp only [seenAfter, if_neg hmem, List.map_cons, List.mem_cons]
        rw [ih]
        simp only [List.mem_cons]
        tauto

theorem dedupByPid_append : ∀ (l1 l2 : List RawPlayer) (seen : List String),
    dedupByPid (l1 ++ l2) seen
      = dedupByPid l1 seen ++ dedupByPid l2 (seenAfter l1 seen) := by
  intro l1
  induction l1 with
  | nil => intro l2 seen; rfl
  | cons p t ih =>
      intro l2 seen
      by_cases hmem : p.player_id ∈ seen
      · simp only [List.cons_append, dedupByPid, seenAfter, if_pos hmem]
        exact ih l2 seen
      · simp only [List.cons_append, dedupByPid, seenAfter, if_neg hmem, List.append_eq]
        rw [ih]

theorem dedupByPid_eq_nil : ∀ (l : List RawPlayer) (seen : List String),
    (∀ q ∈ l.map RawPlayer.player_id, q ∈ seen) → dedupByPid l seen = [] := by
  intro l
  induction l with
  | nil => intro _ _; rfl
  | cons p t ih =>
      intro seen h
      have hp : p.player_id ∈ seen := h _ (by simp)
      simp only [dedupByPid, if_pos hp]
      exact ih seen (fun q hq => h q (by simp [hq]))

theorem merge_self_eq (l : List RawPlayer) : merge_databases l l = dedupByPid l [] := by
  unfold merge_databases
  rw [dedupByPid_append, dedupByPid_eq_nil l (seenAfter l [])
    (fun q hq => (mem_seenAfter q l []).mpr (Or.inr hq))]
  simp

/-- C9: the Merger deduplicates by `player_id` — the output is a sublist of
the concatenation (so order follows concatenation order with later duplicates
removed), has no duplicate ids, and lookup by id returns the first
collection's record when present there — and merging a collection with
itself yields the original collection up to that deduplication: the result
is a sublist of the original, id lookups agree with the original, and the id
set is unchanged; the spec's concrete scenario evaluates as stated. -/
theorem C9_merger_first_wins_idempotent :
    (∀ a b : List RawPlayer, List.Sublist (merge_databases a b) (a ++ b))
      ∧ (∀ a b : List RawPlayer, ((merge_databases a b).map RawPlayer.player_id).Nodup)
      ∧ (∀ (a b : List RawPlayer) (pid : String),
          (merge_databases a b).find? (fun p => p.player_id == pid)
            = (a.find? (fun p => p.player_id == pid)
                <|> b.find? (fun p => p.player_id == pid)))
      ∧ (∀ l : List RawPlayer, List.Sublist (merge_databases l l) l)
      ∧ (∀ (l : List RawPlayer) (pid : String),
          (merge_databases l l).find? (fun p => p.player_id == pid)
            = l.find? (fun p => p.player_id == pid))
      ∧ (∀ (l : List RawPlayer) (q : String),
          q ∈ (merge_databases l l).map RawPlayer.player_id
            ↔ q ∈ l.map RawPlayer.player_id)
      ∧ merge_databases [mPlayerFirst] [mPlayerSecond, mPlayerOther]
          = [mPlayerFirst, mPlayerOther] := by
  refine ⟨?_, ?_, ?_, ?_, ?_, ?_, ?_⟩
  · intro a b
    exact dedupByPid_sublist (a ++ b) []
  · intro a b
    exact nodup_map_dedupByPid (a ++ b) []
  · intro a b pid
    rw [show merge_databases a b = dedupByPid (a ++ b) [] from rfl,
      find?_dedupByPid pid (a ++ b) [] (by simp), find?_append_eq]
  · intro l
    rw [merge_self_eq]
    exact dedupByPid_sublist l []
  · intro l pid
    rw [merge_self_eq]
    exact find?_dedupByPid pid l [] (by simp)
  · intro l q
    rw [merge_self_eq, mem_map_dedupByPid]
    simp
  · rfl

/-! ### Lemmas about the Stint Builder loop -/

theorem processEntries_append_malformed (nowOrd : Nat) (nowYear : Int)
    (p : RawPlayer) (cl : Nat) :
    ∀ (es1 es2 : List CareerEntry) (sid snum : Nat),
      processEntries nowOrd nowYear p cl (es1 ++ CareerEntry.malformed :: es2) sid snum
        = processEntries nowOrd nowYear p cl es1 sid snum := by
  intro es1
  induction es1 with
  | nil => intro es2 sid snum; rfl
  | cons e t ih =>
      intro es2 sid snum
      cases e with
      | malformed => rfl
      | ok r =>
          simp only [List.cons_append, List.append_eq, processEntries]
          rw [ih]

theorem processEntries_update (nowOrd : Nat) (nowYear : Int) (p : RawPlayer) (tc : Nat)
    (h : p.teams_count = some tc) (A B : CareerHistory) (cl1 cl2 : Nat) :
    ∀ (es : List CareerEntry) (sid snum : Nat),
      processEntries nowOrd nowYear { p with career_history := A } cl1 es sid snum
        = processEntries nowOrd nowYear { p with career_history := B } cl2 es sid snum := by
  intro es
  induction es with
  | nil => intro _ _; rfl
  | cons e t ih =>
      intro sid snum
      cases e with
      | malformed => rfl
      | ok r =>
          simp only [processEntries]
          rw [ih]
          congr 1
          simp [mkStintOf, h]

theorem buildStintsAux_append (nowOrd : Nat) (nowYear : Int) :
    ∀ (xs ys : List RawPlayer) (sid : Nat),
      buildStintsAux nowOrd nowYear (xs ++ ys) sid
        = buildStintsAux nowOrd nowYear xs sid
            ++ buildStintsAux nowOrd nowYear ys
                (sid + (buildStintsAux nowOrd nowYear xs sid).length) := by
  intro xs
  induction xs with
  | nil => intro ys sid; simp [buildStintsAux]
  | cons p t ih =>
      intro ys sid
      cases hch : p.career_history with
      | absent =>
          simp only [List.cons_append, buildStintsAux, hch]
          exact ih ys sid
      | invalid =>
          simp only [List.cons_append, buildStintsAux, hch]
          exact ih ys sid
      | entries es =>
          simp only [List.cons_append, List.append_eq, buildStintsAux, hch]
          rw [ih]
          simp [List.append_assoc, List.length_append, Nat.add_assoc]

/-- C3 (amended): a malformed individual entry is caught by the per-player
handler — the stints already built from that player's earlier entries are
kept, the malformed entry and everything after it for that same player is
skipped, and all other players (before and after) are processed exactly as
without it; no exception escapes since the builder is a total function.
Formally, for a player with a recorded `teams_count`, the table built from a
career `es1 ++ [malformed] ++ es2` equals the table built from `es1` alone. -/
theorem C3_malformed_entry_truncates_player :
    ∀ (nowOrd : Nat) (nowYear : Int) (pre post : List RawPlayer) (p : RawPlayer)
      (tc : Nat) (es1 es2 : List CareerEntry),
      p.teams_count = some tc →
      CareerHistoryDatabase.build_career_stints_table nowOrd nowYear
          (pre ++ { p with career_history :=
              CareerHistory.entries (es1 ++ CareerEntry.malformed :: es2) } :: post)
        = CareerHistoryDatabase.build_career_stints_table nowOrd nowYear
            (pre ++ { p with career_history := CareerHistory.entries es1 } :: post) := by
  intro nowOrd nowYear pre post p tc es1 es2 h
  unfold build_career_stints_table
  rw [buildStintsAux_append, buildStintsAux_append]
  congr 1
  simp only [buildStintsAux]
  rw [processEntries_append_malformed,
    processEntries_update nowOrd nowYear p tc h
      (CareerHistory.entries (es1 ++ CareerEntry.malformed :: es2))
      (CareerHistory.entries es1)
      (es1 ++ CareerEntry.malformed :: es2).length es1.length]

/-- C3 witness: the truncation theorem applied to the concrete scenario
player. -/
theorem C3_witness :
    CareerHistoryDatabase.build_career_stints_table sampleNow sampleYear
        ([] ++ { playerMal with career_history := CareerHistory.entries ([CareerEntry.ok entryA] ++ CareerEntry.malformed :: [CareerEntry.ok entryC]) } :: [playerD])
      = CareerHistoryDatabase.build_career_stints_table sampleNow sampleYear
          ([] ++ { playerMal with career_history := CareerHistory.entries [CareerEntry.ok entryA] } :: [playerD]) :=
  C3_malformed_entry_truncates_player sampleNow sampleYear [] [playerD] playerMal 3
    [CareerEntry.ok entryA] [CareerEntry.ok entryC] rfl

/-! ### Field specifications of the built stints -/

theorem processEntries_mem (nowOrd : Nat) (nowYear : Int) (p : RawPlayer) (cl : Nat)
    (P : Stint → Prop)
    (hP : ∀ (sid snum : Nat) (e : RawEntry), P (mkStintOf nowOrd nowYear p cl sid snum e)) :
    ∀ (es : List CareerEntry) (sid snum : Nat) (s : Stint),
      s ∈ processEntries nowOrd nowYear p cl es sid snum → P s := by
  intro es
  induction es with
  | nil => intro _ _ s hs; simp [processEntries] at hs
  | cons e t ih =>
      intro sid snum s hs
      cases e with
      | malformed => simp [processEntries] at hs
      | ok r =>
          simp only [processEntries, List.mem_cons] at hs
          rcases hs with h1 | h2
          · rw [h1]
            exact hP sid snum r
          · exact ih _ _ s h2

theorem buildStints_mem (nowOrd : Nat) (nowYear : Int) (P : Stint → Prop)
    (hP : ∀ (p : RawPlayer) (cl sid snum : Nat) (e : RawEntry),
        P (mkStintOf nowOrd nowYear p cl sid snum e)) :
    ∀ (players : List RawPlayer) (sid : Nat) (s : Stint),
      s ∈ buildStintsAux nowOrd nowYear players sid → P s := by
  intro players
  induction players with
  | nil => intro sid s hs; simp [buildStintsAux] at hs
  | cons p t ih =>
      intro sid s hs
      cases hch : p.career_history with
      | absent =>
          simp only [buildStintsAux, hch] at hs
          exact ih _ s hs
      | invalid =>
          simp only [buildStintsAux, hch] at hs
          exact ih _ s hs
      | entries es =>
          simp only [buildStintsAux, hch, List.mem_append] at hs
          rcases hs with h1 | h2
          · exact processEntries_mem nowOrd nowYear p es.length P
              (fun sid2 snum2 e => hP p es.length sid2 snum2 e) es sid 1 s h1
          · exact ih _ s h2

/-- C4 (amended): every built stint's `year_start` is the first 4-digit run of
its `date_start`, and `year_end` is the first 4-digit run of `date_end`
except that the current calendar year is used whenever `date_end` is empty
or contains the token "present" case-insensitively — not only when it is
exactly "Present". -/
theorem C4_year_fields :
    ∀ (nowOrd : Nat) (nowYear : Int) (players : List RawPlayer) (s : Stint),
      s ∈ CareerHistoryDatabase.build_career_stints_table nowOrd nowYear players →
      s.year_start = CareerHistoryDatabase._extract_year s.date_start
        ∧ s.year_end
            = (if s.date_end != "" && !hasPresentLower s.date_end
               then CareerHistoryDatabase._extract_year s.date_end
               else some nowYear) := by
  intro nowOrd nowYear players s hs
  refine buildStints_mem nowOrd nowYear
    (fun s => s.year_start = CareerHistoryDatabase._extract_year s.date_start
      ∧ s.year_end
          = (if s.date_end != "" && !hasPresentLower s.date_end
             then CareerHistoryDatabase._extract_year s.date_end
             else some nowYear)) ?_ players 1 s hs
  intro p cl sid snum e
  exact ⟨rfl, rfl⟩

/-- C4 witness: the year-field specification evaluated at the first stint the
builder derives for the scenario player. -/
theorem C4_witness :
    sampleStint0.year_start = CareerHistoryDatabase._extract_year sampleStint0.date_start
      ∧ sampleStint0.year_end
          = (if sampleStint0.date_end != "" && !hasPresentLower sampleStint0.date_end
             then CareerHistoryDatabase._extract_year sampleStint0.date_end
             else some sampleYear) :=
  C4_year_fields sampleNow sampleYear [playerABC] sampleStint0 (by decide)

/-- C7 (amended): every built stint's `duration_days` is
`_calculate_duration` of its date bounds; the duration is 0 whenever a bound
is missing or unparsable and the present-token rule does not apply; when both
bounds parse it is the day difference clamped at 0; when `date_end` contains
"present" case-insensitively (in particular the sentinel "Present") the
current time is the end bound; and the scenario range
"2020-04-13 — 2020-07-02" yields 80 days. -/
theorem C7_duration_spec :
    (∀ (nowOrd : Nat) (nowYear : Int) (players : List RawPlayer) (s : Stint),
        s ∈ CareerHistoryDatabase.build_career_stints_table nowOrd nowYear players →
        s.duration_days
          = CareerHistoryDatabase._calculate_duration nowOrd s.date_start s.date_end)
      ∧ (∀ (nowOrd : Nat) (ds de : String), parseYMD ds = none →
          CareerHistoryDatabase._calculate_duration nowOrd ds de = 0)
      ∧ (∀ (nowOrd : Nat) (ds de : String), hasPresentLower de = false →
          parseYMD de = none →
          CareerHistoryDatabase._calculate_duration nowOrd ds de = 0)
      ∧ (∀ (nowOrd : Nat) (ds de : String) (ps pe : Nat × Nat × Nat),
          parseYMD ds = some ps → parseYMD de = some pe →
          hasPresentLower de = false →
          (CareerHistoryDatabase._calculate_duration nowOrd ds de : Int)
            = max 0 ((ordinalOf pe : Int) - (ordinalOf ps : Int)))
      ∧ (∀ (nowOrd : Nat) (ds de : String) (ps : Nat × Nat × Nat),
          parseYMD ds = some ps → hasPresentLower de = true →
          (CareerHistoryDatabase._calculate_duration nowOrd ds de : Int)
            = max 0 ((nowOrd : Int) - (ordinalOf ps : Int)))
      ∧ (∀ nowOrd : Nat,
          CareerHistoryDatabase._calculate_duration nowOrd
              (OptimizedCareerScraper._extract_start_date "2020-04-13 — 2020-07-02")
              (OptimizedCareerScraper._extract_end_date "2020-04-13 — 2020-07-02")
            = 80) := by
  refine ⟨?_, ?_, ?_, ?_, ?_, ?_⟩
  · intro nowOrd nowYear players s hs
    refine buildStints_mem nowOrd nowYear
      (fun s => s.duration_days
        = CareerHistoryDatabase._calculate_duration nowOrd s.date_start s.date_end)
      ?_ players 1 s hs
    intro p cl sid snum e
    rfl
  · intro nowOrd ds de h
    by_cases h0 : ds = "" || de = ""
    · simp [_calculate_duration, h0]
    · simp only [_calculate_duration, h0, if_false, Bool.false_eq_true, h,
        Option.map_none']
      cases hpe : (if hasPresentLower de then some nowOrd
          else (parseYMD de).map ordinalOf) with
      | none => rfl
      | some e => rfl
  · intro nowOrd ds de h1 h2
    by_cases h0 : ds = "" || de = ""
    · simp [_calculate_duration, h0]
    · simp [_calculate_duration, h0, h1, h2]
  · intro nowOrd ds de ps pe h1 h2 h3
    have hds : ¬ ds = "" := by
      intro h0
      rw [h0] at h1
      simp [parseYMD] at h1
    have hde : ¬ de = "" := by
      intro h0
      rw [h0] at h2
      simp [parseYMD] at h2
    simp [_calculate_duration, hds, hde, h1, h2, h3]
    omega
  · intro nowOrd ds de ps h1 h2
    have hds : ¬ ds = "" := by
      intro h0
      rw [h0] at h1
      simp [parseYMD] at h1
    have hde : ¬ de = "" := by
      intro h0
      rw [h0] at h2
      simp [hasPresentLower, pyLower, containsSub] at h2
    simp [_calculate_duration, hds, hde, h1, h2]
    omega
  · intro nowOrd
    rfl

/-- C7 witness: the clamped-difference clause evaluated at two concrete
parsable bounds. -/
theorem C7_witness :
    (CareerHistoryDatabase._calculate_duration 0 "2021-01-01" "2021-01-11" : Int)
      = max 0 ((ordinalOf (2021, 1, 11) : Int) - (ordinalOf (2021, 1, 1) : Int)) :=
  C7_duration_spec.2.2.2.1 0 "2021-01-01" "2021-01-11" (2021, 1, 1) (2021, 1, 11)
    rfl rfl rfl

/-! ### Substring containment characterization (for the end-date claim) -/

theorem containsSub_iff (n : List Char) : ∀ h : List Char,
    containsSub n h = true ↔ ∃ p q, h = p ++ n ++ q := by
  intro h
  induction h with
  | nil =>
      simp only [containsSub, List.isEmpty_iff]
      constructor
      · intro hn
        exact ⟨[], [], by simp [hn]⟩
      · rintro ⟨p, q, hpq⟩
        rcases List.append_eq_nil.mp (List.append_eq_nil.mp hpq.symm).1 with ⟨_, h2⟩
        exact h2
  | cons c t ih =>
      simp only [containsSub, Bool.or_eq_true, List.isPrefixOf_iff_prefix, ih]
      constructor
      · rintro (hpre | ⟨p, q, hpq⟩)
        · rcases hpre with ⟨s, hs⟩
          exact ⟨[], s, by simp [hs]⟩
        · exact ⟨c :: p, q, by simp [hpq]⟩
      · rintro ⟨p, q, hpq⟩
        cases p with
        | nil =>
            refine Or.inl ⟨q, ?_⟩
            simpa using hpq.symm
        | cons c2 p2 =>
            rcases List.cons_eq_cons.mp hpq with ⟨hc, ht⟩
            exact Or.inr ⟨p2, q, ht⟩

/-- C5 (amended): `date_end` is the literal "Present" exactly when the
substring "Present" or "present" — these two casings only, not arbitrary case
variants — occurs in the raw range (the first conjunct characterizes the
scanner as genuine substring occurrence); otherwise it is the last ISO date
substring only when at least two are present, and a single-date string yields
an empty end. -/
theorem C5_end_date_rules : ∀ r : String,
    ((containsSub "Present".data r.data || containsSub "present".data r.data) = true
        ↔ (∃ p q, r.data = p ++ "Present".data ++ q)
            ∨ (∃ p q, r.data = p ++ "present".data ++ q))
      ∧ ((containsSub "Present".data r.data || containsSub "present".data r.data) = true →
          OptimizedCareerScraper._extract_end_date r = "Present")
      ∧ ((containsSub "Present".data r.data || containsSub "present".data r.data) = false →
          (findAllISO r.data).length ≤ 1 →
          OptimizedCareerScraper._extract_end_date r = "")
      ∧ ((containsSub "Present".data r.data || containsSub "present".data r.data) = false →
          1 < (findAllISO r.data).length →
          OptimizedCareerScraper._extract_end_date r = (findAllISO r.data).getLastD "") := by
  intro r
  refine ⟨?_, ?_, ?_, ?_⟩
  · rw [Bool.or_eq_true, containsSub_iff, containsSub_iff]
  · intro h
    simp [_extract_end_date, h]
  · intro h hlen
    have h2 : ¬ (findAllISO r.data).length > 1 := by omega
    simp [_extract_end_date, h, h2]
  · intro h hlen
    simp [_extract_end_date, h, hlen]

/-- C5 witness: the "Present" rule applied to a concrete raw range. -/
theorem C5_witness :
    OptimizedCareerScraper._extract_end_date "2021-01-10 — Present" = "Present" :=
  (C5_end_date_rules "2021-01-10 — Present").2.1 (by decide)

/-! ### Status extraction (for the team-label claim) -/

theorem firstParenGroup_eq_none (cs : List Char) (h : ∀ c ∈ cs, c ≠ '(') :
    OptimizedCareerScraper.firstParenGroup cs = none := by
  induction cs with
  | nil => rfl
  | cons c t ih =>
      have hc : c ≠ '(' := h c (List.mem_cons_self c t)
      simp only [OptimizedCareerScraper.firstParenGroup, if_neg hc]
      exact ih (fun x hx => h x (List.mem_cons_of_mem c hx))

/-- C6 (amended): the status comes from the contents of the *first*
parenthesized group of the raw label — the first `(` followed by at least one
non-`)` character and a `)` — not the trailing one. Universally over labels
and group contents: case-folded content containing "inactive" maps to
Inactive, otherwise one containing "loan" to Loan, otherwise "stand-in" or
"standin" to Stand-in, otherwise "trial" to Trial; any other content is
preserved title-cased; a label with no such group (in particular one with no
`(` at all) yields Active. Only `_clean_team_name` strips the trailing
parenthetical (whose content may itself contain `(`), as the concrete
conjuncts show, including the first-group-versus-trailing-group sample. -/
theorem C6_status_rules :
    (∀ s : String, (∀ c ∈ s.data, c ≠ '(') →
        OptimizedCareerScraper._extract_status s = "Active")
      ∧ (∀ s : String, OptimizedCareerScraper.firstParenGroup s.data = none →
          OptimizedCareerScraper._extract_status s = "Active")
      ∧ (∀ (s : String) (g : List Char),
          OptimizedCareerScraper.firstParenGroup s.data = some g →
          containsSub "inactive".data (OptimizedCareerScraper.statusNorm g).data = true →
          OptimizedCareerScraper._extract_status s = "Inactive")
      ∧ (∀ (s : String) (g : List Char),
          OptimizedCareerScraper.firstParenGroup s.data = some g →
          containsSub "inactive".data (OptimizedCareerScraper.statusNorm g).data = false →
          containsSub "loan".data (OptimizedCareerScraper.statusNorm g).data = true →
          OptimizedCareerScraper._extract_status s = "Loan")
      ∧ (∀ (s : String) (g : List Char),
          OptimizedCareerScraper.firstParenGroup s.data = some g →
          containsSub "inactive".data (OptimizedCareerScraper.statusNorm g).data = false →
          containsSub "loan".data (OptimizedCareerScraper.statusNorm g).data = false →
          (containsSub "stand-in".data (OptimizedCareerScraper.statusNorm g).data
            || containsSub "standin".data (OptimizedCareerScraper.statusNorm g).data) = true →
          OptimizedCareerScraper._extract_status s = "Stand-in")
      ∧ (∀ (s : String) (g : List Char),
          OptimizedCareerScraper.firstParenGroup s.data = some g →
          containsSub "inactive".data (OptimizedCareerScraper.statusNorm g).data = false →
          containsSub "loan".data (OptimizedCareerScraper.statusNorm g).data = false →
          (containsSub "stand-in".data (OptimizedCareerScraper.statusNorm g).data
            || containsSub "standin".data (OptimizedCareerScraper.statusNorm g).data) = false →
          containsSub "trial".data (OptimizedCareerScraper.statusNorm g).data = true →
          OptimizedCareerScraper._extract_status s = "Trial")
      ∧ (∀ (s : String) (g : List Char),
          OptimizedCareerScraper.firstParenGroup s.data = some g →
          containsSub "inactive".data (OptimizedCareerScraper.statusNorm g).data = false →
          containsSub "loan".data (OptimizedCareerScraper.statusNorm g).data = false →
          (containsSub "stand-in".data (OptimizedCareerScraper.statusNorm g).data
            || containsSub "standin".data (OptimizedCareerScraper.statusNorm g).data) = false →
          containsSub "trial".data (OptimizedCareerScraper.statusNorm g).data = false →
          OptimizedCareerScraper._extract_status s
            = pyTitle (OptimizedCareerScraper.statusNorm g))
      ∧ OptimizedCareerScraper._extract_status "Team (Academy) Squad (Loan)" = "Academy"
      ∧ OptimizedCareerScraper._clean_team_name "Team X (Inactive)" = "Team X"
      ∧ OptimizedCareerScraper._clean_team_name "Name (a(b)" = "Name"
      ∧ OptimizedCareerScraper._clean_team_name "abc (x)(y)" = "abc (x)" := by
  refine ⟨?_, ?_, ?_, ?_, ?_, ?_, ?_, rfl, rfl, rfl, rfl⟩
  · intro s h
    simp [OptimizedCareerScraper._extract_status, firstParenGroup_eq_none s.data h]
  · intro s hg
    simp [OptimizedCareerScraper._extract_status, hg]
  · intro s g hg h1
    simp only [OptimizedCareerScraper.statusNorm] at h1
    simp [OptimizedCareerScraper._extract_status, hg, h1]
  · intro s g hg h1 h2
    simp only [OptimizedCareerScraper.statusNorm] at h1 h2
    simp [OptimizedCareerScraper._extract_status, hg, h1, h2]
  · intro s g hg h1 h2 h3
    simp only [OptimizedCareerScraper.statusNorm] at h1 h2 h3
    simp [OptimizedCareerScraper._extract_status, hg, h1, h2, h3]
  · intro s g hg h1 h2 h3 h4
    simp only [OptimizedCareerScraper.statusNorm] at h1 h2 h3 h4
    simp [OptimizedCareerScraper._extract_status, hg, h1, h2, h3, h4]
  · intro s g hg h1 h2 h3 h4
    simp only [OptimizedCareerScraper.statusNorm] at h1 h2 h3 h4
    simp [OptimizedCareerScraper._extract_status, OptimizedCareerScraper.statusNorm,
      hg, h1, h2, h3, h4]

/-- C6 witness: the universal "loan" rule applied to a concrete label whose
group content is mixed-case with surrounding words. -/
theorem C6_witness :
    OptimizedCareerScraper._extract_status "Team Y (on Loan spell)" = "Loan" :=
  C6_status_rules.2.2.2.1 "Team Y (on Loan spell)" "on Loan spell".data
    rfl (by decide) (by decide)

/-! ### Counting lemmas for the Relational Deriver (transition counts) -/

theorem countP_assignTransitionIds (p : Transition → Bool)
    (hp : ∀ (t : Transition) (n : Nat), p { t with transition_id := n } = p t) :
    ∀ (ts : List Transition) (n : Nat),
      (assignTransitionIds ts n).countP p = ts.countP p := by
  intro ts
  induction ts with
  | nil => intro n; rfl
  | cons t rest ih =>
      intro n
      simp only [assignTransitionIds, List.countP_cons, hp, ih]

theorem length_insertByNum (s : Stint) : ∀ l : List Stint,
    (insertByNum s l).length = l.length + 1 := by
  intro l
  induction l with
  | nil => rfl
  | cons t ts ih =>
      simp only [insertByNum]
      split
      · simp
      · simp [ih]

theorem length_sortByStintNumber : ∀ l : List Stint,
    (sortByStintNumber l).length = l.length := by
  intro l
  induction l with
  | nil => rfl
  | cons s ss ih => simp [sortByStintNumber, length_insertByNum, ih]

theorem length_adjPairs (l : List Stint) : (adjPairs l).length = l.length - 1 := by
  simp only [adjPairs, List.length_zip, List.length_tail]
  omega

theorem mem_uniqueFirst (x : String) : ∀ (l seen : List String),
    x ∈ uniqueFirst l seen ↔ x ∈ l ∧ x ∉ seen := by
  intro l
  induction l with
  | nil => intro seen; simp [uniqueFirst]
  | cons y t ih =>
      intro seen
      by_cases hy : y ∈ seen
      · simp only [uniqueFirst, if_pos hy, List.mem_cons]
        rw [ih]
        constructor
        · rintro ⟨h1, h2⟩
          exact ⟨Or.inr h1, h2⟩
        · rintro ⟨h1 | h1, h2⟩
          · exact absurd (h1 ▸ hy) h2
          · exact ⟨h1, h2⟩
      · simp only [uniqueFirst, if_neg hy, List.mem_cons]
        rw [ih]
        constructor
        · rintro (h | ⟨h1, h2⟩)
          · exact ⟨Or.inl h, h ▸ hy⟩
          · exact ⟨Or.inr h1, fun hx => h2 (List.mem_cons.mpr (Or.inr hx))⟩
        · rintro ⟨h1 | h1, h2⟩
          · exact Or.inl h1
          · by_cases hx : x = y
            · exact Or.inl hx
            · exact Or.inr ⟨h1, fun hin => (List.mem_cons.mp hin).elim hx h2⟩

theorem nodup_uniqueFirst : ∀ (l seen : List String), (uniqueFirst l seen).Nodup := by
  intro l
  induction l with
  | nil => intro seen; simp [uniqueFirst]
  | cons y t ih =>
      intro seen
      by_cases hy : y ∈ seen
      · simp only [uniqueFirst, if_pos hy]
        exact ih seen
      · simp only [uniqueFirst, if_neg hy]
        refine List.nodup_cons.mpr ⟨?_, ih _⟩
        intro hin
        exact ((mem_uniqueFirst y t _).mp hin).2 (List.mem_cons_self _ _)

theorem mem_uniquePids (pid : String) (stints : List Stint) :
    pid ∈ uniquePids stints ↔ pid ∈ stints.map Stint.player_id := by
  simp [uniquePids, mem_uniqueFirst]

theorem stintsFor_eq_nil (pid : String) (stints : List Stint)
    (h : pid ∉ stints.map Stint.player_id) : stintsFor pid stints = [] := by
  rw [stintsFor, List.filter_eq_nil_iff]
  intro s hs
  simp only [beq_iff_eq]
  intro he
  exact h (List.mem_map.mpr ⟨s, hs, he⟩)

theorem countP_map_mkTransition (pidg pid : String) (qT : Transition → Bool)
    (qpr : Stint × Stint → Bool)
    (hq : ∀ a b, qT (mkTransition pidg a b) = qpr (a, b))
    (prs : List (Stint × Stint)) :
    (prs.map (fun pr => mkTransition pidg pr.1 pr.2)).countP
        (fun t => t.player_id == pid && qT t)
      = if pidg = pid then prs.countP qpr else 0 := by
  rw [List.countP_map]
  by_cases hp : pidg = pid
  · subst hp
    rw [if_pos rfl]
    refine List.countP_congr ?_
    intro pr _
    rw [Function.comp_apply, hq pr.1 pr.2]
    simp [mkTransition]
  · rw [if_neg hp, List.countP_eq_zero]
    intro pr _
    rw [Function.comp_apply]
    simp [mkTransition, hp]

theorem countP_transitionsForPids (stints : List Stint) (pid : String)
    (qT : Transition → Bool) (qpr : Stint × Stint → Bool)
    (hq : ∀ (pidg : String) (a b : Stint), qT (mkTransition pidg a b) = qpr (a, b)) :
    ∀ pids : List String, pids.Nodup →
      (transitionsForPids stints pids).countP (fun t => t.player_id == pid && qT t)
        = if pid ∈ pids
          then (adjPairs (sortByStintNumber (stintsFor pid stints))).countP qpr
          else 0 := by
  intro pids
  induction pids with
  | nil => intro _; simp [transitionsForPids]
  | cons pidg rest ih =>
      intro hnd
      rcases List.nodup_cons.mp hnd with ⟨hni, hnd2⟩
      simp only [transitionsForPids, List.countP_append]
      rw [countP_map_mkTransition pidg pid qT qpr (fun a b => hq pidg a b), ih hnd2]
      by_cases hp : pidg = pid
      · subst hp
        rw [if_pos rfl, if_neg hni, if_pos (List.mem_cons_self _ _)]
        simp
      · rw [if_neg hp]
        by_cases hm : pid ∈ rest
        · rw [if_pos hm, if_pos (List.mem_cons.mpr (Or.inr hm))]
          simp
        · rw [if_neg hm,
            if_neg (fun hin => (List.mem_cons.mp hin).elim (fun h => hp h.symm) hm)]

/-- C1 (amended): after the initial Relational Deriver build, every player's
transition count equals `stint count − 1` truncated at zero (`Nat`
subtraction is exactly the `max(0, · − 1)` of the claim). The Cleaner,
however, only filters the already-built transitions — a transition survives
exactly when both endpoint teams are real — so after cleaning a player's
transition count equals the number of adjacent pairs of the player's
originally ordered stints with both teams real, which can be strictly
smaller than (filtered stint count − 1). -/
theorem C1_transition_count_rules : ∀ (stints : List Stint) (pid : String),
    (team_transitions_core stints).countP (fun t => t.player_id == pid)
        = (stintsFor pid stints).length - 1
      ∧ (DatabaseCleaner.clean_transitions_core (team_transitions_core stints)).countP
            (fun t => t.player_id == pid)
          = ((adjPairs (sortByStintNumber (stintsFor pid stints))).filter
              (fun pr => !DatabaseCleaner.is_fake_team pr.1.team
                && !DatabaseCleaner.is_fake_team pr.2.team)).length := by
  intro stints pid
  constructor
  · rw [team_transitions_core,
      countP_assignTransitionIds (fun t => t.player_id == pid) (fun t n => rfl)]
    rw [List.countP_congr
      (fun t _ => by simp : ∀ t ∈ transitionsForPids stints (uniquePids stints),
        ((t.player_id == pid) = true
          ↔ (t.player_id == pid && (fun (_ : Transition) => true) t) = true))]
    rw [countP_transitionsForPids stints pid (fun _ => true) (fun _ => true)
      (fun _ _ _ => rfl) (uniquePids stints) (nodup_uniqueFirst _ _)]
    by_cases hm : pid ∈ uniquePids stints
    · rw [if_pos hm, List.countP_true, length_adjPairs, length_sortByStintNumber]
    · rw [if_neg hm,
        stintsFor_eq_nil pid stints (fun h => hm ((mem_uniquePids pid stints).mpr h))]
      rfl
  · rw [show DatabaseCleaner.clean_transitions_core (team_transitions_core stints)
        = (team_transitions_core stints).filter DatabaseCleaner.keepRealTransition from rfl]
    rw [List.countP_filter, team_transitions_core,
      countP_assignTransitionIds
        (fun t => t.player_id == pid && DatabaseCleaner.keepRealTransition t)
        (fun t n => rfl)]
    rw [countP_transitionsForPids stints pid DatabaseCleaner.keepRealTransition
      (fun pr => !DatabaseCleaner.is_fake_team pr.1.team
        && !DatabaseCleaner.is_fake_team pr.2.team)
      (fun pidg a b => rfl) (uniquePids stints) (nodup_uniqueFirst _ _)]
    by_cases hm : pid ∈ uniquePids stints
    · rw [if_pos hm, List.countP_eq_length_filter]
    · rw [if_neg hm,
        stintsFor_eq_nil pid stints (fun h => hm ((mem_uniquePids pid stints).mpr h))]
      simp [sortByStintNumber, adjPairs]

end PlayerDB
